import Mathlib

/-!
A verification development for the iCalendar value-transformation engine
(`icalendar.py`): shallow embeddings of its parsing/serializing helper
functions, its value-behavior transforms and its recurrence/timezone
helpers, together with theorems settling the specified properties.

Python conventions used throughout the embedding:
- a Python exception propagating out of a function is modelled by
  `Except PyErr`: `.error e` means the call raised `e`;
- Python `int` and `datetime.timedelta` values are modelled by `Int`
  (a timedelta is its total length in microseconds, which determines the
  normalized `days/seconds/microseconds` triple bijectively and respects
  `==` and ordering);
- Python strings are Lean `String`s (in this toolchain a `String` is a
  wrapper around its `List Char`, matching Python str indexing/slicing).
-/

/-- The kinds of Python exception that the embedded code can raise.
`parseError`, `nativeError` and `vobjectError` model the library's own
exception classes; the others model built-in Python exceptions. -/
inductive PyErr where
  | parseError
  | nativeError
  | vobjectError
  | valueError
  | typeError
  | indexError
  | attributeError
  | unboundLocal
  deriving DecidableEq

deriving instance DecidableEq for Except

/-- Models membership of a character in Python's `string.digits`
(`"0123456789"`), as used by the duration state machine and by `int()`. -/
def isPyDigit (c : Char) : Bool :=
  "0123456789".data.contains c

/-- The numeric value of a decimal digit character (Python `int` bases its
conversion on this). -/
def digitVal (c : Char) : Nat :=
  c.toNat - 48

/-- Accumulate the value of a decimal digit string left to right. -/
def parseNatDigits (l : List Char) : Nat :=
  l.foldl (fun a c => 10 * a + digitVal c) 0

/-- Models Python `int(s)` on the strings that arise in this code: a
non-empty all-digit string converts to its value, anything else raises
`ValueError`.  (The embedded callers only ever reach `int()` with digit
runs produced by slicing or by the state machines.) -/
def pyIntStr (l : List Char) : Except PyErr Nat :=
  if l ≠ [] ∧ l.all isPyDigit then .ok (parseNatDigits l) else .error .valueError

/-- Fuel-driven helper for `natDigs` (structural recursion so that the
kernel can evaluate it; the fuel is always sufficient at the call site). -/
def natDigsF : Nat → Nat → List Char
  | 0, _ => []
  | fuel+1, n =>
      if n < 10 then [Nat.digitChar n]
      else natDigsF fuel (n / 10) ++ [Nat.digitChar (n % 10)]

/-- The decimal digits of `n`, most significant first; models the digits of
Python `str(n)` for a non-negative integer. -/
def natDigs (n : Nat) : List Char :=
  natDigsF (n + 1) n

/-- Models Python `str(n)` for a non-negative integer. -/
def natToStr (n : Nat) : String :=
  ⟨natDigs n⟩

theorem natDigsF_irrel : ∀ f g n : Nat, n < f → n < g → natDigsF f n = natDigsF g n := by
  intro f
  induction f with
  | zero => omega
  | succ f ih =>
    intro g n hf hg
    match g, hg with
    | g + 1, hg =>
      rw [natDigsF, natDigsF]
      by_cases h10 : n < 10
      · simp [h10]
      · simp only [h10, if_false]
        rw [ih g (n / 10) (by omega) (by omega)]

/-- The defining recurrence of `natDigs`. -/
theorem natDigs_eq (n : Nat) :
    natDigs n = if n < 10 then [Nat.digitChar n]
                else natDigs (n / 10) ++ [Nat.digitChar (n % 10)] := by
  rw [natDigs, natDigsF]
  by_cases h10 : n < 10
  · simp [h10]
  · simp only [h10, if_false]
    rw [natDigs, natDigsF_irrel n (n / 10 + 1) (n / 10) (by omega) (by omega)]

theorem natDigs_ne_nil (n : Nat) : natDigs n ≠ [] := by
  rw [natDigs_eq]
  split <;> simp

theorem digitChar_isPyDigit {n : Nat} (h : n < 10) :
    isPyDigit (Nat.digitChar n) = true := by
  interval_cases n <;> decide

theorem digitVal_digitChar {n : Nat} (h : n < 10) :
    digitVal (Nat.digitChar n) = n := by
  interval_cases n <;> decide

theorem natDigs_all_digits (n : Nat) : (natDigs n).all isPyDigit = true := by
  induction n using Nat.strong_induction_on with
  | _ n ih =>
    rw [natDigs_eq]
    by_cases h : n < 10
    · simp [h, digitChar_isPyDigit h]
    · simp only [h, if_false, List.all_append]
      rw [Bool.and_eq_true]
      constructor
      · exact ih (n / 10) (Nat.div_lt_self (by omega) (by omega))
      · simp [digitChar_isPyDigit (Nat.mod_lt n (by omega))]

theorem parseNatDigits_append (l₁ l₂ : List Char) :
    parseNatDigits (l₁ ++ l₂) =
      (l₂.foldl (fun a c => 10 * a + digitVal c) (parseNatDigits l₁)) := by
  simp [parseNatDigits, List.foldl_append]

theorem parseFold_shift (l : List Char) (acc : Nat) :
    l.foldl (fun a c => 10 * a + digitVal c) acc =
      acc * 10 ^ l.length + parseNatDigits l := by
  induction l generalizing acc with
  | nil => simp [parseNatDigits]
  | cons c cs ih =>
    have h1 := ih (10 * acc + digitVal c)
    have h2 := ih (10 * 0 + digitVal c)
    simp only [parseNatDigits, List.foldl_cons, List.length_cons] at h1 h2 ⊢
    rw [h1, h2]
    ring

theorem parseNatDigits_natDigs (n : Nat) : parseNatDigits (natDigs n) = n := by
  induction n using Nat.strong_induction_on with
  | _ n ih =>
    rw [natDigs_eq]
    by_cases h : n < 10
    · simp only [h, if_true]
      simp [parseNatDigits, digitVal_digitChar h]
    · simp only [h, if_false]
      rw [parseNatDigits_append, parseFold_shift]
      have hd : parseNatDigits [(n % 10).digitChar] = n % 10 := by
        simp [parseNatDigits, digitVal_digitChar (Nat.mod_lt n (by omega))]
      rw [ih (n / 10) (Nat.div_lt_self (by omega) (by omega)), hd]
      simp only [List.length_cons, List.length_nil, pow_one, zero_add]
      omega

theorem digitVal_le_nine {c : Char} (h : isPyDigit c = true) : digitVal c ≤ 9 := by
  simp only [isPyDigit, List.contains_eq_any_beq, List.any_eq_true] at h
  obtain ⟨d, hd, hbeq⟩ := h
  simp only [beq_iff_eq] at hbeq
  subst hbeq
  fin_cases hd <;> decide

theorem parseNatDigits_lt (l : List Char) (h : l.all isPyDigit = true) :
    parseNatDigits l < 10 ^ l.length := by
  induction l with
  | nil => simp [parseNatDigits]
  | cons c cs ih =>
    simp only [List.all_cons, Bool.and_eq_true] at h
    rw [parseNatDigits, List.foldl_cons, parseFold_shift]
    have h1 : digitVal c ≤ 9 := digitVal_le_nine h.1
    have h2 : parseNatDigits cs < 10 ^ cs.length := ih h.2
    simp only [List.length_cons]
    have : (10 * 0 + digitVal c) * 10 ^ cs.length ≤ 9 * 10 ^ cs.length := by
      apply Nat.mul_le_mul_right
      omega
    calc (10 * 0 + digitVal c) * 10 ^ cs.length + parseNatDigits cs
        ≤ 9 * 10 ^ cs.length + parseNatDigits cs := by omega
      _ < 9 * 10 ^ cs.length + 10 ^ cs.length := by omega
      _ = 10 ^ (cs.length + 1) := by ring
theorem natDigs_length_le {k n : Nat} (hk : 1 ≤ k) (h : n < 10 ^ k) :
    (natDigs n).length ≤ k := by
  induction k generalizing n with
  | zero => omega
  | succ k ih =>
    by_cases h10 : n < 10
    · rw [natDigs_eq]
      simp [h10]
    · rw [natDigs_eq]
      simp only [h10, if_false, List.length_append, List.length_cons, List.length_nil]
      have hk1 : 1 ≤ k := by
        by_contra hc
        have hk0 : k = 0 := by omega
        subst hk0
        have : (10:Nat) ^ (0 + 1) = 10 := by norm_num
        omega
      have : n / 10 < 10 ^ k := by
        rw [Nat.div_lt_iff_lt_mul (by omega)]
        calc n < 10 ^ (k + 1) := h
          _ = 10 ^ k * 10 := by ring
      have := ih hk1 this
      omega

theorem pyIntStr_natDigs (n : Nat) : pyIntStr (natDigs n) = .ok n := by
  rw [pyIntStr, if_pos ⟨natDigs_ne_nil n, natDigs_all_digits n⟩, parseNatDigits_natDigs]

/-! ## Date-time model

`icalendar.py` works with Python `datetime.datetime` values.  A datetime
is its seven calendar fields plus an optional `tzinfo`.  The only tzinfo
objects these functions build or compare against are the module's `utc`
singleton (`dateutil.tz.tzutc()`) and fixed-offset zones, modelled by
`TZ`. -/

/-- A tzinfo attached to a datetime: the module-level `utc` singleton or a
fixed UTC offset in minutes. -/
inductive TZ where
  | utc
  | fixed (offsetMinutes : Int)
  deriving DecidableEq

/-- A Python `datetime.datetime`: calendar fields plus optional tzinfo. -/
structure DateTime where
  year : Nat
  month : Nat
  day : Nat
  hour : Nat
  minute : Nat
  second : Nat
  microsecond : Nat
  tz : Option TZ
  deriving DecidableEq

/-- Gregorian leap-year predicate (as used by `datetime`). -/
def isLeapYear (y : Nat) : Bool :=
  y % 4 = 0 && (y % 100 ≠ 0 || y % 400 = 0)

/-- Number of days in a month, per the Gregorian calendar (as enforced by
the `datetime.datetime` constructor). -/
def daysInMonth (y mo : Nat) : Nat :=
  if mo = 2 then (if isLeapYear y then 29 else 28)
  else if mo = 4 ∨ mo = 6 ∨ mo = 9 ∨ mo = 11 then 30
  else 31

/-- The `datetime.datetime(year, month, day, hour, minute, second,
microsecond, tzinfo)` constructor: returns the datetime, or raises
`ValueError` when a field is out of range. -/
def mkDatetime (y mo d h mi s us : Nat) (tz : Option TZ) : Except PyErr DateTime :=
  if 1 ≤ y ∧ y ≤ 9999 ∧ 1 ≤ mo ∧ mo ≤ 12 ∧ 1 ≤ d ∧ d ≤ daysInMonth y mo ∧
     h ≤ 23 ∧ mi ≤ 59 ∧ s ≤ 59 ∧ us ≤ 999999 then
    .ok ⟨y, mo, d, h, mi, s, us, tz⟩
  else .error .valueError

/-- Python slice `s[a:b]` on a character list (for `0 ≤ a ≤ b`). -/
def pySlice (l : List Char) (a b : Nat) : List Char :=
  (l.drop a).take (b - a)

/-- Days from 1970-01-01 to the given civil date (Howard Hinnant's
`days_from_civil`); used to model Python datetime arithmetic such as
`astimezone` and aware-datetime comparison. -/
def daysFromCivil (y mo d : Int) : Int :=
  let y := if mo ≤ 2 then y - 1 else y
  let era := Int.fdiv y 400
  let yoe := y - era * 400
  let mp := Int.emod (mo + 9) 12
  let doy := Int.fdiv (153 * mp + 2) 5 + d - 1
  let doe := yoe * 365 + Int.fdiv yoe 4 - Int.fdiv yoe 100 + doy
  era * 146097 + doe - 719468

/-- The civil date of a day count from 1970-01-01 (Howard Hinnant's
`civil_from_days`), inverse of `daysFromCivil`. -/
def civilFromDays (z : Int) : Int × Int × Int :=
  let z := z + 719468
  let era := Int.fdiv z 146097
  let doe := z - era * 146097
  let yoe := Int.fdiv (doe - Int.fdiv doe 1460 + Int.fdiv doe 36524 - Int.fdiv doe 146096) 365
  let y := yoe + era * 400
  let doy := doe - (365 * yoe + Int.fdiv yoe 4 - Int.fdiv yoe 100)
  let mp := Int.fdiv (5 * doy + 2) 153
  let d := doy - Int.fdiv (153 * mp + 2) 5 + 1
  let mo := Int.emod (mp + 2) 12 + 1
  ((if mo ≤ 2 then y + 1 else y), mo, d)

/-- UTC offset of a tzinfo in minutes (`tzinfo.utcoffset` in whole
minutes; the embedded zones all have whole-minute offsets). -/
def tzOffsetMinutes : TZ → Int
  | .utc => 0
  | .fixed m => m

/-- Absolute position of an aware datetime in microseconds since the
epoch (naive datetimes: position on an unanchored timeline).  This is the
quantity Python compares when testing aware datetimes for equality. -/
def toAbsMicro (d : DateTime) : Int :=
  (daysFromCivil d.year d.month d.day * 86400 +
   (d.hour * 3600 + d.minute * 60 + d.second : Nat)) * 1000000 +
  d.microsecond - (match d.tz with
    | none => 0
    | some z => tzOffsetMinutes z) * 60000000

/-- Rebuild a UTC datetime from an absolute microsecond position. -/
def fromAbsMicroUTC (a : Int) : DateTime :=
  let days := Int.fdiv a 86400000000
  let rem := (Int.emod a 86400000000).toNat
  let ymd := civilFromDays days
  { year := ymd.1.toNat, month := ymd.2.1.toNat, day := ymd.2.2.toNat,
    hour := rem / 3600000000, minute := rem % 3600000000 / 60000000,
    second := rem % 60000000 / 1000000, microsecond := rem % 1000000,
    tz := some .utc }

/-- `dateTime.astimezone(utc)`.  CPython first checks
`self.tzinfo is tz` and returns `self` unchanged in that case; otherwise
it shifts to UTC.  The only call site (`dateTimeToString`) guards on
`dateTime.tzinfo` being truthy, so the naive case (which CPython rejects
with `ValueError`) is unreachable and left as the identity. -/
def astimezoneUTC (d : DateTime) : DateTime :=
  match d.tz with
  | some .utc => d
  | some (.fixed _) => fromAbsMicroUTC (toAbsMicro d)
  | none => d

/-- Python `==` on datetimes: naive pairs compare by fields, aware pairs
compare as instants, and a naive/aware mixed pair is never equal (CPython
returns `False` for mixed `==`). -/
def pyDtEq (a b : DateTime) : Bool :=
  match a.tz, b.tz with
  | none, none => a == b
  | some _, some _ => toAbsMicro a == toAbsMicro b
  | _, _ => false

/-! ## Serializing helper functions (`icalendar.py` lines 1239-1301) -/

/-- `numToDigits(num, places)`: decimal digits of `num` padded with
leading zeros to `places` characters, or truncated to the last `places`
characters when longer. -/
def numToDigits (num places : Nat) : String :=
  let s := natToStr num
  if s.length < places then ⟨List.replicate (places - s.length) '0' ++ s.data⟩
  else if s.length > places then ⟨s.data.drop (s.length - places)⟩
  else s

/-- `dateToString(date)`: fixed-width `YYYYMMDD`. -/
def dateToString (y mo d : Nat) : String :=
  numToDigits y 4 ++ numToDigits mo 2 ++ numToDigits d 2

/-- `dateTimeToString(dateTime, preserveTZ)`: convert to UTC if tzinfo is
set unless `preserveTZ`; output `YYYYMMDDTHHMMSS` with a trailing `Z`
exactly when the (possibly converted) value's tzinfo equals `utc`.
The Python signature defaults `preserveTZ` to `True`. -/
def dateTimeToString (dt : DateTime) (preserveTZ : Bool) : String :=
  let dt := if dt.tz.isSome ∧ ¬preserveTZ then astimezoneUTC dt else dt
  let utcString := if dt.tz = some .utc then "Z" else ""
  numToDigits dt.year 4 ++ numToDigits dt.month 2 ++ numToDigits dt.day 2 ++
    "T" ++ numToDigits dt.hour 2 ++ numToDigits dt.minute 2 ++
    numToDigits dt.second 2 ++ utcString

/-! ## Date-time parsing (`icalendar.py` lines 1310-1331) -/

/-- `stringToDate(s)`: parse fixed slices `[0:4]`, `[4:6]`, `[6:8]` as
year, month, day of a `datetime.date`.  There is no `try` here, so
`int()` or constructor failures propagate as `ValueError`. -/
def stringToDate (s : String) : Except PyErr (Nat × Nat × Nat) :=
  match pyIntStr (pySlice s.data 0 4), pyIntStr (pySlice s.data 4 6),
        pyIntStr (pySlice s.data 6 8) with
  | .ok y, .ok mo, .ok d =>
      if 1 ≤ y ∧ y ≤ 9999 ∧ 1 ≤ mo ∧ mo ≤ 12 ∧ 1 ≤ d ∧ d ≤ daysInMonth y mo then
        .ok (y, mo, d)
      else .error .valueError
  | _, _, _ => .error .valueError

/-- `stringToDateTime(s, tzinfo)`: parse the six fixed digit slices of
`s`; any failure inside the `try` block (bad `int()` conversion) is
re-raised as `ParseError`.  A character `Z` at index 15 forces UTC.  The
`datetime.datetime` construction happens after the `try`, so out-of-range
fields raise `ValueError`, not `ParseError`.  The Python signature
defaults `tzinfo` to `None`. -/
def stringToDateTime (s : String) (tzinfo : Option TZ) : Except PyErr DateTime :=
  match pyIntStr (pySlice s.data 0 4), pyIntStr (pySlice s.data 4 6),
        pyIntStr (pySlice s.data 6 8), pyIntStr (pySlice s.data 9 11),
        pyIntStr (pySlice s.data 11 13), pyIntStr (pySlice s.data 13 15) with
  | .ok year, .ok month, .ok day, .ok hour, .ok minute, .ok second =>
      let tzinfo := if s.data.length > 15 then
          (if s.data[15]? = some 'Z' then some TZ.utc else tzinfo)
        else tzinfo
      mkDatetime year month day hour minute second 0 tzinfo
  | _, _, _, _, _, _ => .error .parseError

/-! ## Slicing lemmas -/

theorem pySlice_at (pre seg post : List Char) (i j : Nat)
    (hi : i = pre.length) (hj : j = pre.length + seg.length) :
    pySlice (pre ++ (seg ++ post)) i j = seg := by
  subst hi hj
  rw [pySlice, List.drop_left]
  have : pre.length + seg.length - pre.length = seg.length := by omega
  rw [this, List.take_left]

theorem pyIntStr_lt {l : List Char} {n k : Nat}
    (h : pyIntStr l = .ok n) (hk : l.length = k) : n < 10 ^ k := by
  rw [pyIntStr] at h
  split at h
  · rename_i hcond
    have : n = parseNatDigits l := by
      cases h
      rfl
    subst this hk
    exact parseNatDigits_lt l hcond.2
  · cases h

/-- Helper: `stringToDateTime` on a string decomposed into its six digit
slices, the separator position and an arbitrary tail. -/
theorem stringToDateTime_slices_aux
    (a b c d e f rest : List Char) (x : Char) (y mo dy h mi s : Nat)
    (ha : a.length = 4) (hb : b.length = 2) (hc : c.length = 2)
    (hd : d.length = 2) (he : e.length = 2) (hf : f.length = 2)
    (hay : pyIntStr a = .ok y) (hbm : pyIntStr b = .ok mo)
    (hcd : pyIntStr c = .ok dy) (hdh : pyIntStr d = .ok h)
    (hem : pyIntStr e = .ok mi) (hfs : pyIntStr f = .ok s)
    (hy : 1 ≤ y) (hmo1 : 1 ≤ mo) (hmo2 : mo ≤ 12)
    (hdy1 : 1 ≤ dy) (hdy2 : dy ≤ daysInMonth y mo)
    (hh : h ≤ 23) (hmi : mi ≤ 59) (hs : s ≤ 59) :
    stringToDateTime ⟨a ++ (b ++ (c ++ ([x] ++ (d ++ (e ++ (f ++ rest))))))⟩ none =
      .ok ⟨y, mo, dy, h, mi, s, 0,
           if rest[0]? = some 'Z' then some TZ.utc else none⟩ := by
  have hy4 : y ≤ 9999 := by
    have := pyIntStr_lt hay ha
    omega
  set L : List Char := a ++ (b ++ (c ++ ([x] ++ (d ++ (e ++ (f ++ rest)))))) with hL
  have s1 : pySlice L 0 4 = a := pySlice_at [] a _ 0 4 rfl (by simp [ha])
  have s2 : pySlice L 4 6 = b := by
    have := pySlice_at a b (c ++ ([x] ++ (d ++ (e ++ (f ++ rest))))) 4 6
      (by omega) (by omega)
    exact this
  have s3 : pySlice L 6 8 = c := by
    have h0 : L = (a ++ b) ++ (c ++ ([x] ++ (d ++ (e ++ (f ++ rest))))) := by
      simp [hL, List.append_assoc]
    rw [h0]
    exact pySlice_at (a ++ b) c _ 6 8 (by simp [ha, hb]) (by simp [ha, hb, hc])
  have s4 : pySlice L 9 11 = d := by
    have h0 : L = (a ++ b ++ c ++ [x]) ++ (d ++ (e ++ (f ++ rest))) := by
      simp [hL, List.append_assoc]
    rw [h0]
    exact pySlice_at (a ++ b ++ c ++ [x]) d _ 9 11
      (by simp [ha, hb, hc]) (by simp [ha, hb, hc, hd])
  have s5 : pySlice L 11 13 = e := by
    have h0 : L = (a ++ b ++ c ++ [x] ++ d) ++ (e ++ (f ++ rest)) := by
      simp [hL, List.append_assoc]
    rw [h0]
    exact pySlice_at (a ++ b ++ c ++ [x] ++ d) e _ 11 13
      (by simp [ha, hb, hc, hd]) (by simp [ha, hb, hc, hd, he])
  have s6 : pySlice L 13 15 = f := by
    have h0 : L = (a ++ b ++ c ++ [x] ++ d ++ e) ++ (f ++ rest) := by
      simp [hL, List.append_assoc]
    rw [h0]
    exact pySlice_at (a ++ b ++ c ++ [x] ++ d ++ e) f _ 13 15
      (by simp [ha, hb, hc, hd, he]) (by simp [ha, hb, hc, hd, he, hf])
  have hlen : L.length = 15 + rest.length := by
    simp [hL, ha, hb, hc, hd, he, hf]
    omega
  have hget : L[15]? = rest[0]? := by
    have h0 : L = (a ++ b ++ c ++ [x] ++ d ++ e ++ f) ++ rest := by
      simp [hL, List.append_assoc]
    have h1 : (a ++ b ++ c ++ [x] ++ d ++ e ++ f).length = 15 := by
      simp [ha, hb, hc, hd, he, hf]
    rw [h0, List.getElem?_append_right (by omega)]
    simp [ha, hb, hc, hd, he, hf]
  have hdata : (⟨L⟩ : String).data = L := rfl
  rw [stringToDateTime, hdata, s1, s2, s3, s4, s5, s6,
      hay, hbm, hcd, hdh, hem, hfs]
  have hctor : mkDatetime y mo dy h mi s 0
      (if L.length > 15 then (if L[15]? = some 'Z' then some TZ.utc else none)
       else none) =
      .ok ⟨y, mo, dy, h, mi, s, 0,
           if rest[0]? = some 'Z' then some TZ.utc else none⟩ := by
    rw [mkDatetime, if_pos]
    · congr 1
      rw [hget, hlen]
      cases rest with
      | nil => simp
      | cons r rs => simp
    · exact ⟨hy, hy4, hmo1, hmo2, hdy1, hdy2, hh, hmi, hs, by omega⟩
  exact hctor

/-- C10: `stringToDateTime` validates only the fixed digit slices: any
string whose slices `[0:4]`, `[4:6]`, `[6:8]`, `[9:11]`, `[11:13]`,
`[13:15]` are decimal digit runs forming an in-range date and time
parses successfully, regardless of the character at index 8 and of
everything after index 15 -- except that a `Z` at index 15 forces UTC. -/
theorem stringToDateTime_fixed_slices
    (a b c d e f rest : List Char) (x : Char) (y mo dy h mi s : Nat)
    (ha : a.length = 4) (hb : b.length = 2) (hc : c.length = 2)
    (hd : d.length = 2) (he : e.length = 2) (hf : f.length = 2)
    (hay : pyIntStr a = .ok y) (hbm : pyIntStr b = .ok mo)
    (hcd : pyIntStr c = .ok dy) (hdh : pyIntStr d = .ok h)
    (hem : pyIntStr e = .ok mi) (hfs : pyIntStr f = .ok s)
    (hy : 1 ≤ y) (hmo1 : 1 ≤ mo) (hmo2 : mo ≤ 12)
    (hdy1 : 1 ≤ dy) (hdy2 : dy ≤ daysInMonth y mo)
    (hh : h ≤ 23) (hmi : mi ≤ 59) (hs : s ≤ 59) :
    stringToDateTime ⟨a ++ (b ++ (c ++ ([x] ++ (d ++ (e ++ (f ++ rest))))))⟩ none =
      .ok ⟨y, mo, dy, h, mi, s, 0,
           if rest[0]? = some 'Z' then some TZ.utc else none⟩ :=
  stringToDateTime_slices_aux a b c d e f rest x y mo dy h mi s
    ha hb hc hd he hf hay hbm hcd hdh hem hfs hy hmo1 hmo2 hdy1 hdy2 hh hmi hs

/-- Witness for C10: `"20050119X090000"` (an `X` where the `T` separator
belongs) parses successfully. -/
theorem stringToDateTime_fixed_slices_witness :
    stringToDateTime ⟨['2','0','0','5'] ++ (['0','1'] ++ (['1','9'] ++
        (['X'] ++ (['0','9'] ++ (['0','0'] ++ (['0','0'] ++ ([] : List Char)))))))⟩ none =
      .ok ⟨2005, 1, 19, 9, 0, 0, 0, none⟩ := by
  have := stringToDateTime_fixed_slices ['2','0','0','5'] ['0','1'] ['1','9']
    ['0','9'] ['0','0'] ['0','0'] [] 'X' 2005 1 19 9 0 0
    rfl rfl rfl rfl rfl rfl
    (by decide) (by decide) (by decide) (by decide) (by decide) (by decide)
    (by decide) (by decide) (by decide) (by decide) (by decide)
    (by decide) (by decide) (by decide)
  simpa using this

/-! ## `numToDigits` specification -/

theorem strDataAppend (s t : String) : (s ++ t).data = s.data ++ t.data := rfl

theorem parseNatDigits_replicate (k : Nat) :
    parseNatDigits (List.replicate k '0') = 0 := by
  induction k with
  | zero => rfl
  | succ k ih =>
    rw [List.replicate_succ, parseNatDigits, List.foldl_cons]
    have h0 : 10 * 0 + digitVal '0' = 0 := by decide
    rw [h0]
    exact ih

theorem numToDigits_spec {n p : Nat} (hp : 1 ≤ p) (h : n < 10 ^ p) :
    (numToDigits n p).data.length = p ∧ pyIntStr (numToDigits n p).data = .ok n := by
  have hlen : (natDigs n).length ≤ p := natDigs_length_le hp h
  have hnl : (natToStr n).length = (natDigs n).length := rfl
  rw [numToDigits]
  by_cases hc : (natToStr n).length < p
  · simp only [hc, if_true]
    have hdig : (List.replicate (p - (natToStr n).length) '0' ++ (natToStr n).data).all
        isPyDigit = true := by
      rw [List.all_append, Bool.and_eq_true]
      constructor
      · rw [List.all_eq_true]
        intro c hcmem
        rw [List.eq_of_mem_replicate hcmem]
        decide
      · exact natDigs_all_digits n
    constructor
    · simp only [List.length_append, List.length_replicate]
      have : (natToStr n).data.length = (natDigs n).length := rfl
      omega
    · rw [pyIntStr, if_pos]
      · have : parseNatDigits (List.replicate (p - (natToStr n).length) '0' ++
            (natToStr n).data) = n := by
          rw [parseNatDigits_append, parseNatDigits_replicate]
          exact parseNatDigits_natDigs n
        rw [this]
      · refine ⟨?_, hdig⟩
        simp only [ne_eq, List.append_eq_nil, not_and]
        intro _
        exact natDigs_ne_nil n
  · have heq : (natToStr n).length = p := by omega
    have hgt : ¬ ((natToStr n).length > p) := by omega
    simp only [hc, if_false, hgt]
    constructor
    · exact heq
    · exact pyIntStr_natDigs n

/-! ## C8: the date-time round trip -/

/-- The range constraints that every constructed Python `datetime`
satisfies. -/
def validDT (dt : DateTime) : Prop :=
  1 ≤ dt.year ∧ dt.year ≤ 9999 ∧ 1 ≤ dt.month ∧ dt.month ≤ 12 ∧
  1 ≤ dt.day ∧ dt.day ≤ daysInMonth dt.year dt.month ∧
  dt.hour ≤ 23 ∧ dt.minute ≤ 59 ∧ dt.second ≤ 59 ∧ dt.microsecond ≤ 999999

instance (dt : DateTime) : Decidable (validDT dt) := by
  rw [validDT]
  infer_instance

theorem daysInMonth_le (y mo : Nat) : daysInMonth y mo ≤ 31 := by
  rw [daysInMonth]
  split
  · split <;> omega
  · split <;> omega

theorem dateTimeToString_data (dt : DateTime) (p : Bool)
    (hconv : (if dt.tz.isSome ∧ ¬p then astimezoneUTC dt else dt) = dt) :
    (dateTimeToString dt p).data =
      (numToDigits dt.year 4).data ++ ((numToDigits dt.month 2).data ++
      ((numToDigits dt.day 2).data ++ (['T'] ++ ((numToDigits dt.hour 2).data ++
      ((numToDigits dt.minute 2).data ++ ((numToDigits dt.second 2).data ++
      (if dt.tz = some TZ.utc then ['Z'] else []))))))) := by
  rw [dateTimeToString]
  simp only [hconv]
  by_cases hu : dt.tz = some TZ.utc <;>
    simp [hu, strDataAppend, List.append_assoc]

/-- C8 (amended): for every microsecond-free datetime whose tzinfo is
absent or UTC, the offset-preserving formatter round-trips through
`stringToDateTime`; for UTC datetimes the UTC-forced formatter emits a
string ending in `Z` that reparses to the same instant.  (Non-UTC-offset
aware datetimes and microseconds do not round-trip; see the
counterexample.) -/
theorem datetime_roundtrip (dt : DateTime) (hv : validDT dt)
    (hus : dt.microsecond = 0) (htz : dt.tz = none ∨ dt.tz = some TZ.utc) :
    stringToDateTime (dateTimeToString dt true) none = .ok dt ∧
    (dt.tz = some TZ.utc →
      (dateTimeToString dt false).data.getLast? = some 'Z' ∧
      stringToDateTime (dateTimeToString dt false) none = .ok dt) := by
  obtain ⟨hy1, hy2, hmo1, hmo2, hd1, hd2, hh, hmi, hs, -⟩ := hv
  have hdm := daysInMonth_le dt.year dt.month
  have hY := numToDigits_spec (n := dt.year) (p := 4) (by omega) (by omega)
  have hMO := numToDigits_spec (n := dt.month) (p := 2) (by omega) (by omega)
  have hD := numToDigits_spec (n := dt.day) (p := 2) (by omega) (by omega)
  have hH := numToDigits_spec (n := dt.hour) (p := 2) (by omega) (by omega)
  have hMI := numToDigits_spec (n := dt.minute) (p := 2) (by omega) (by omega)
  have hS := numToDigits_spec (n := dt.second) (p := 2) (by omega) (by omega)
  have hparse : ∀ p : Bool,
      (if dt.tz.isSome ∧ ¬p then astimezoneUTC dt else dt) = dt →
      stringToDateTime (dateTimeToString dt p) none = .ok dt := by
    intro p hconv
    have hdata := dateTimeToString_data dt p hconv
    have hstr : dateTimeToString dt p =
        ⟨(numToDigits dt.year 4).data ++ ((numToDigits dt.month 2).data ++
         ((numToDigits dt.day 2).data ++ (['T'] ++ ((numToDigits dt.hour 2).data ++
         ((numToDigits dt.minute 2).data ++ ((numToDigits dt.second 2).data ++
         (if dt.tz = some TZ.utc then ['Z'] else []))))))) ⟩ :=
      congrArg String.mk hdata
    rw [hstr]
    have := stringToDateTime_slices_aux (numToDigits dt.year 4).data
      (numToDigits dt.month 2).data (numToDigits dt.day 2).data
      (numToDigits dt.hour 2).data (numToDigits dt.minute 2).data
      (numToDigits dt.second 2).data
      (if dt.tz = some TZ.utc then ['Z'] else []) 'T'
      dt.year dt.month dt.day dt.hour dt.minute dt.second
      hY.1 hMO.1 hD.1 hH.1 hMI.1 hS.1
      hY.2 hMO.2 hD.2 hH.2 hMI.2 hS.2
      hy1 hmo1 hmo2 hd1 hd2 hh hmi hs
    rw [this]
    rcases htz with h0 | h0 <;>
      · have hfield :
            (if (if dt.tz = some TZ.utc then ['Z'] else ([] : List Char))[0]? = some 'Z'
             then some TZ.utc else (none : Option TZ)) = dt.tz := by
          rw [h0]
          simp
        rw [hfield, ← hus]
  constructor
  · exact hparse true (by simp)
  · intro hutc
    have hconv : (if dt.tz.isSome ∧ ¬false then astimezoneUTC dt else dt) = dt := by
      simp [hutc, astimezoneUTC]
    refine ⟨?_, hparse false hconv⟩
    have hdata := dateTimeToString_data dt false hconv
    rw [hdata, hutc]
    simp only [reduceIte]
    have hre : (numToDigits dt.year 4).data ++ ((numToDigits dt.month 2).data ++
        ((numToDigits dt.day 2).data ++ (['T'] ++ ((numToDigits dt.hour 2).data ++
        ((numToDigits dt.minute 2).data ++ ((numToDigits dt.second 2).data ++
        ['Z'])))))) =
        ((numToDigits dt.year 4).data ++ ((numToDigits dt.month 2).data ++
        ((numToDigits dt.day 2).data ++ (['T'] ++ ((numToDigits dt.hour 2).data ++
        ((numToDigits dt.minute 2).data ++ (numToDigits dt.second 2).data)))))) ++
        ['Z'] := by
      simp [List.append_assoc]
    rw [hre]
    exact List.getLast?_concat _

/-- Witness for C8: the UTC datetime 2005-01-19T09:00:00 round-trips and
its UTC-forced serialization ends in `Z`. -/
theorem datetime_roundtrip_witness :
    stringToDateTime (dateTimeToString ⟨2005, 1, 19, 9, 0, 0, 0, some TZ.utc⟩ true) none =
      .ok ⟨2005, 1, 19, 9, 0, 0, 0, some TZ.utc⟩ ∧
    (dateTimeToString ⟨2005, 1, 19, 9, 0, 0, 0, some TZ.utc⟩ false).data.getLast? =
      some 'Z' := by
  have h := datetime_roundtrip ⟨2005, 1, 19, 9, 0, 0, 0, some TZ.utc⟩
    (by decide) (by decide) (Or.inr rfl)
  exact ⟨h.1, (h.2 rfl).1⟩

/-- C8 counterexample: (1) a datetime carrying a non-UTC fixed offset
formats without `Z` under the offset-preserving formatter and reparses
to a naive datetime that Python does not consider equal to the original;
(2) microseconds are dropped by the formatter, so a datetime with
microseconds does not reparse to itself; (3) the UTC-forced formatter
applied to a naive datetime does not produce a `Z`-suffixed string. -/
theorem datetime_roundtrip_counterexample :
    (stringToDateTime
        (dateTimeToString ⟨2005, 1, 19, 9, 0, 0, 0, some (TZ.fixed 60)⟩ true) none =
      .ok ⟨2005, 1, 19, 9, 0, 0, 0, none⟩) ∧
    pyDtEq ⟨2005, 1, 19, 9, 0, 0, 0, none⟩ ⟨2005, 1, 19, 9, 0, 0, 0, some (TZ.fixed 60)⟩ =
      false ∧
    (stringToDateTime
        (dateTimeToString ⟨2005, 1, 19, 9, 0, 0, 500000, none⟩ true) none =
      .ok ⟨2005, 1, 19, 9, 0, 0, 0, none⟩) ∧
    ¬ (stringToDateTime
        (dateTimeToString ⟨2005, 1, 19, 9, 0, 0, 500000, none⟩ true) none =
      .ok ⟨2005, 1, 19, 9, 0, 0, 500000, none⟩) ∧
    ¬ ((dateTimeToString ⟨2005, 1, 19, 9, 0, 0, 0, none⟩ false).data.getLast? =
      some 'Z') := by
  decide

/-! ## Timedelta serialization (`timedeltaToString`, lines 1249-1268)

A Python `timedelta` is modelled as its total signed length in
microseconds (`Int`); `timedelta.days` is the floor division of that
total by a day, matching Python's normalized representation. -/

/-- `delta.days` of a timedelta: floor division of the total length by
one day (Python normalizes `timedelta` this way). -/
def tdDays (t : Int) : Int := Int.fdiv t 86400000000

/-- `sign` as computed by `timedeltaToString`: `1` when `delta.days` is
zero, else `delta.days / abs(delta.days)` (Python floor division). -/
def tdSign (delta : Int) : Int :=
  if tdDays delta = 0 then 1
  else Int.fdiv (tdDays delta) ((tdDays delta).natAbs)

/-- `days` of `abs(delta)` as read by `timedeltaToString`. -/
def tdDaysN (delta : Int) : Nat := delta.natAbs / 86400000000

/-- `seconds` of `abs(delta)` (the sub-day second count). -/
def tdSecsN (delta : Int) : Nat := delta.natAbs % 86400000000 / 1000000

/-- `hours = delta.seconds / 3600` in `timedeltaToString`. -/
def tdHours (delta : Int) : Nat := tdSecsN delta / 3600

/-- `minutes = (delta.seconds % 3600) / 60` in `timedeltaToString`. -/
def tdMinutes (delta : Int) : Nat := tdSecsN delta % 3600 / 60

/-- `seconds = delta.seconds % 60` in `timedeltaToString`. -/
def tdSeconds (delta : Int) : Nat := tdSecsN delta % 60

/-- `timedeltaToString(delta)`: the rfc2445 DURATION of a timedelta.
The fields are read off `abs(delta)`; microseconds are never rendered.
A zero duration becomes `"P0S"`. -/
def timedeltaToString (delta : Int) : String :=
  (if tdSign delta = -1 then "-" else "") ++ "P" ++
  (if tdDaysN delta ≠ 0 then natToStr (tdDaysN delta) ++ "D" else "") ++
  (if tdHours delta ≠ 0 ∨ tdMinutes delta ≠ 0 ∨ tdSeconds delta ≠ 0 then "T"
   else if tdDaysN delta = 0 then "0S" else "") ++
  (if tdHours delta ≠ 0 then natToStr (tdHours delta) ++ "H" else "") ++
  (if tdMinutes delta ≠ 0 then natToStr (tdMinutes delta) ++ "M" else "") ++
  (if tdSeconds delta ≠ 0 then natToStr (tdSeconds delta) ++ "S" else "")

/-! ## Duration parsing (`stringToDurations`, lines 1398-1512)

The accumulated week/day/hour/minute/second fields hold Python values of
changing type: the integer `0` initially, a digit string once a unit
letter assigns one, and `None` after a `,` resets them.  `DurField`
mirrors this. -/

/-- The runtime value of one accumulated duration field. -/
inductive DurField where
  | int (n : Nat)
  | str (s : String)
  | pynone
  deriving DecidableEq

/-- Python `int(field)`: identity on ints, digit-string conversion on
strings (`ValueError` on a non-numeric/empty string), `TypeError` on
`None`. -/
def pyIntField : DurField → Except PyErr Nat
  | .int n => .ok n
  | .str s => pyIntStr s.data
  | .pynone => .error .typeError

/-- Python truthiness of a duration field (`0`, `""` and `None` are
falsy). -/
def truthyF : DurField → Bool
  | .int n => n ≠ 0
  | .str s => s ≠ ""
  | .pynone => false

/-- Python truthiness of the `sign` variable (`None` or `"+"`/`"-"`). -/
def truthyS : Option String → Bool
  | none => false
  | some s => s ≠ ""

/-- `makeTimedelta(sign, week, day, hour, minute, sec)`: convert each
field with `int()` (in source order) and build the signed timedelta, in
microseconds. -/
def makeTimedelta (sign : Option String) (week day hour minute sec : DurField) :
    Except PyErr Int :=
  let sgn : Int := if sign = some "-" then -1 else 1
  match pyIntField week with
  | .error e => .error e
  | .ok w =>
  match pyIntField day with
  | .error e => .error e
  | .ok d =>
  match pyIntField hour with
  | .error e => .error e
  | .ok h =>
  match pyIntField minute with
  | .error e => .error e
  | .ok mi =>
  match pyIntField sec with
  | .error e => .error e
  | .ok s =>
    .ok (sgn * ((((w * 7 + d) * 86400 + h * 3600 + mi * 60 + s : Nat)) * 1000000))

/-- The two live control states of the duration state machine ("end" and
"error" are handled where they occur: both are immediate exits). -/
inductive DurState where
  | start
  | readField
  deriving DecidableEq

/-- The mutable locals of `stringToDurations`. -/
structure DurVars where
  durations : List Int
  current : String
  sign : Option String
  week : DurField
  day : DurField
  hour : DurField
  minute : DurField
  sec : DurField
  deriving DecidableEq

/-- One character step of the duration state machine.  `error()` raises
`ParseError` in both strict and non-strict mode, so errors are modelled
as raising unconditionally. -/
def durStep (st : DurState) (v : DurVars) (c : Char) :
    Except PyErr (DurState × DurVars) :=
  match st with
  | .start =>
      if c = '+' then .ok (.start, { v with sign := some "+" })
      else if c = '-' then .ok (.start, { v with sign := some "-" })
      else if c.toUpper = 'P' then .ok (.readField, v)
      else if isPyDigit c then .ok (.readField, { v with current := v.current.push c })
      else .error .parseError
  | .readField =>
      if isPyDigit c then .ok (.readField, { v with current := v.current.push c })
      else if c.toUpper = 'T' then .ok (.readField, v)
      else if c.toUpper = 'W' then
        .ok (.readField, { v with week := .str v.current, current := "" })
      else if c.toUpper = 'D' then
        .ok (.readField, { v with day := .str v.current, current := "" })
      else if c.toUpper = 'H' then
        .ok (.readField, { v with hour := .str v.current, current := "" })
      else if c.toUpper = 'M' then
        .ok (.readField, { v with minute := .str v.current, current := "" })
      else if c.toUpper = 'S' then
        .ok (.readField, { v with sec := .str v.current, current := "" })
      else if c = ',' then
        match makeTimedelta v.sign v.week v.day v.hour v.minute v.sec with
        | .error e => .error e
        | .ok td =>
            .ok (.start, ⟨v.durations ++ [td], "", none,
                          .pynone, .pynone, .pynone, .pynone, .pynone⟩)
      else .error .parseError

/-- End-of-input handling of the duration machine: in `start` state the
`"got end-of-line"` error is raised; in the read state the machine moves
to `"end"`, which flushes a final duration when any field or the sign is
truthy. -/
def durEof (st : DurState) (v : DurVars) : Except PyErr (List Int) :=
  match st with
  | .start => .error .parseError
  | .readField =>
      if truthyS v.sign || truthyF v.week || truthyF v.day || truthyF v.hour ||
         truthyF v.minute || truthyF v.sec then
        match makeTimedelta v.sign v.week v.day v.hour v.minute v.sec with
        | .error e => .error e
        | .ok td => .ok (v.durations ++ [td])
      else .ok v.durations

/-- Run the duration machine over the remaining characters. -/
def durRun : List Char → DurState → DurVars → Except PyErr (List Int)
  | [], st, v => durEof st v
  | c :: cs, st, v =>
      match durStep st v c with
      | .error e => .error e
      | .ok (st2, v2) => durRun cs st2 v2

/-- `stringToDurations(s, strict)`: returns the list of timedeltas (in
microseconds).  On the empty string the very first iteration executes
`charIndex += 1` before `charIndex` was ever assigned, raising
`UnboundLocalError`.  The `strict` flag is accepted but `error()` raises
`ParseError` on both of its branches, so it has no effect. -/
def stringToDurations (s : String) (strict : Bool) : Except PyErr (List Int) :=
  if s.data = [] then .error .unboundLocal
  else durRun s.data .start ⟨[], "", none, .int 0, .int 0, .int 0, .int 0, .int 0⟩

/-- C4: the embedded code is evaluated at the failing input
`"P1D,P2D"`: the first duration is parsed, but the `,` handler resets
the accumulated fields to `None`, so flushing the second duration calls
`int(None)` and raises `TypeError` instead of returning
`[timedelta(days=1), timedelta(days=2)]`.  A single duration
(`"P1D"`) parses fine. -/
theorem stringToDurations_comma_typeerror :
    stringToDurations "P1D" false = .ok [86400000000] ∧
    stringToDurations "P1D,P2D" false = .error .typeError := by
  decide

/-! ## C3: duration round trip -/

/-- The character-list form of `timedeltaToString`. -/
def timedeltaChars (t : Int) : List Char :=
  (if tdSign t = -1 then ['-'] else []) ++ (['P'] ++
  ((if tdDaysN t ≠ 0 then natDigs (tdDaysN t) ++ ['D'] else []) ++
  ((if tdHours t ≠ 0 ∨ tdMinutes t ≠ 0 ∨ tdSeconds t ≠ 0 then ['T']
    else if tdDaysN t = 0 then ['0', 'S'] else []) ++
  ((if tdHours t ≠ 0 then natDigs (tdHours t) ++ ['H'] else []) ++
  ((if tdMinutes t ≠ 0 then natDigs (tdMinutes t) ++ ['M'] else []) ++
  (if tdSeconds t ≠ 0 then natDigs (tdSeconds t) ++ ['S'] else []))))))

theorem timedeltaToString_data (t : Int) :
    (timedeltaToString t).data = timedeltaChars t := by
  rw [timedeltaToString, timedeltaChars]
  simp only [strDataAppend, apply_ite String.data,
    show ("" : String).data = [] from rfl,
    show ("-" : String).data = ['-'] from rfl,
    show ("P" : String).data = ['P'] from rfl,
    show ("T" : String).data = ['T'] from rfl,
    show ("0S" : String).data = ['0', 'S'] from rfl,
    show ("D" : String).data = ['D'] from rfl,
    show ("H" : String).data = ['H'] from rfl,
    show ("M" : String).data = ['M'] from rfl,
    show ("S" : String).data = ['S'] from rfl,
    show ∀ n, (natToStr n).data = natDigs n from fun _ => rfl]
  simp [List.append_assoc]

theorem tdSign_eq (t : Int) : tdSign t = if t < 0 then -1 else 1 := by
  have hdd : tdDays t = t / 86400000000 := Int.fdiv_eq_ediv t (by norm_num)
  rw [tdSign]
  by_cases h0 : tdDays t = 0
  · rw [if_pos h0]
    have hnn : ¬ t < 0 := by
      rw [hdd] at h0
      omega
    rw [if_neg hnn]
  · rw [if_neg h0]
    have hfd : Int.fdiv (tdDays t) ((tdDays t).natAbs) =
        tdDays t / ((tdDays t).natAbs : Int) :=
      Int.fdiv_eq_ediv _ (by positivity)
    rcases lt_or_gt_of_ne h0 with hneg | hpos
    · have htlt : t < 0 := by
        rw [hdd] at hneg
        omega
      rw [if_pos htlt, hfd]
      have hc : (((tdDays t).natAbs : Int)) = -(tdDays t) := by omega
      rw [hc, Int.ediv_neg, Int.ediv_self h0]
    · have htge : ¬ t < 0 := by
        rw [hdd] at hpos
        omega
      rw [if_neg htge, hfd]
      have hc : (((tdDays t).natAbs : Int)) = tdDays t := by omega
      rw [hc, Int.ediv_self h0]

/-! Single-step lemmas for the duration machine. -/

theorem durRun_dash (cs : List Char) (v : DurVars) :
    durRun ('-' :: cs) .start v = durRun cs .start { v with sign := some "-" } := rfl

theorem durRun_P (cs : List Char) (v : DurVars) :
    durRun ('P' :: cs) .start v = durRun cs .readField v := rfl

theorem durRun_T (cs : List Char) (v : DurVars) :
    durRun ('T' :: cs) .readField v = durRun cs .readField v := rfl

theorem durRun_D (cs : List Char) (v : DurVars) :
    durRun ('D' :: cs) .readField v =
      durRun cs .readField { v with day := .str v.current, current := "" } := rfl

theorem durRun_H (cs : List Char) (v : DurVars) :
    durRun ('H' :: cs) .readField v =
      durRun cs .readField { v with hour := .str v.current, current := "" } := rfl

theorem durRun_M (cs : List Char) (v : DurVars) :
    durRun ('M' :: cs) .readField v =
      durRun cs .readField { v with minute := .str v.current, current := "" } := rfl

theorem durRun_S (cs : List Char) (v : DurVars) :
    durRun ('S' :: cs) .readField v =
      durRun cs .readField { v with sec := .str v.current, current := "" } := rfl

theorem durRun_digits : ∀ (l : List Char), l.all isPyDigit = true →
    ∀ (cs : List Char) (v : DurVars),
    durRun (l ++ cs) .readField v =
      durRun cs .readField { v with current := ⟨v.current.data ++ l⟩ } := by
  intro l
  induction l with
  | nil =>
    intro _ cs v
    simp
  | cons c l2 ih =>
    intro hl cs v
    obtain ⟨hc, hl2⟩ : isPyDigit c = true ∧ l2.all isPyDigit = true := by
      simpa using hl
    rw [List.cons_append, durRun]
    have hstep : durStep .readField v c =
        .ok (.readField, { v with current := v.current.push c }) := by
      rw [durStep]
      simp [hc]
    rw [hstep]
    show durRun (l2 ++ cs) .readField { v with current := v.current.push c } = _
    rw [ih hl2 cs _]
    have : ({ v with current := v.current.push c } : DurVars).current.data ++ l2 =
        v.current.data ++ (c :: l2) := by
      show (v.current.data ++ [c]) ++ l2 = _
      simp
    rw [this]

theorem natToStr_ne_empty (n : Nat) : natToStr n ≠ "" := by
  rw [natToStr]
  intro hcon
  exact natDigs_ne_nil n (congrArg String.data hcon)

theorem durRun_optD (n : Nat) (cs : List Char) (du : List Int) (sg : Option String)
    (w d h mi sc : DurField) :
    durRun ((if n ≠ 0 then natDigs n ++ ['D'] else []) ++ cs) .readField
        ⟨du, "", sg, w, d, h, mi, sc⟩ =
      durRun cs .readField
        ⟨du, "", sg, w, (if n ≠ 0 then .str (natToStr n) else d), h, mi, sc⟩ := by
  by_cases hn : n ≠ 0
  · rw [if_pos hn, if_pos hn, List.append_assoc,
      durRun_digits (natDigs n) (natDigs_all_digits n)]
    simp only [List.singleton_append]
    rw [durRun_D]
    rfl
  · rw [if_neg hn, if_neg hn, List.nil_append]

theorem durRun_optH (n : Nat) (cs : List Char) (du : List Int) (sg : Option String)
    (w d h mi sc : DurField) :
    durRun ((if n ≠ 0 then natDigs n ++ ['H'] else []) ++ cs) .readField
        ⟨du, "", sg, w, d, h, mi, sc⟩ =
      durRun cs .readField
        ⟨du, "", sg, w, d, (if n ≠ 0 then .str (natToStr n) else h), mi, sc⟩ := by
  by_cases hn : n ≠ 0
  · rw [if_pos hn, if_pos hn, List.append_assoc,
      durRun_digits (natDigs n) (natDigs_all_digits n)]
    simp only [List.singleton_append]
    rw [durRun_H]
    rfl
  · rw [if_neg hn, if_neg hn, List.nil_append]

theorem durRun_optM (n : Nat) (cs : List Char) (du : List Int) (sg : Option String)
    (w d h mi sc : DurField) :
    durRun ((if n ≠ 0 then natDigs n ++ ['M'] else []) ++ cs) .readField
        ⟨du, "", sg, w, d, h, mi, sc⟩ =
      durRun cs .readField
        ⟨du, "", sg, w, d, h, (if n ≠ 0 then .str (natToStr n) else mi), sc⟩ := by
  by_cases hn : n ≠ 0
  · rw [if_pos hn, if_pos hn, List.append_assoc,
      durRun_digits (natDigs n) (natDigs_all_digits n)]
    simp only [List.singleton_append]
    rw [durRun_M]
    rfl
  · rw [if_neg hn, if_neg hn, List.nil_append]

theorem durRun_optS (n : Nat) (cs : List Char) (du : List Int) (sg : Option String)
    (w d h mi sc : DurField) :
    durRun ((if n ≠ 0 then natDigs n ++ ['S'] else []) ++ cs) .readField
        ⟨du, "", sg, w, d, h, mi, sc⟩ =
      durRun cs .readField
        ⟨du, "", sg, w, d, h, mi, (if n ≠ 0 then .str (natToStr n) else sc)⟩ := by
  by_cases hn : n ≠ 0
  · rw [if_pos hn, if_pos hn, List.append_assoc,
      durRun_digits (natDigs n) (natDigs_all_digits n)]
    simp only [List.singleton_append]
    rw [durRun_S]
    rfl
  · rw [if_neg hn, if_neg hn, List.nil_append]

theorem pyIntField_ifopt (n : Nat) (d : DurField) (hd : pyIntField d = .ok 0) :
    pyIntField (if n ≠ 0 then DurField.str (natToStr n) else d) = .ok n := by
  by_cases hn : n ≠ 0
  · rw [if_pos hn]
    show pyIntStr (natDigs n) = .ok n
    exact pyIntStr_natDigs n
  · rw [if_neg hn]
    rw [hd]
    have : n = 0 := by omega
    rw [this]

theorem makeTimedelta_ok (sg : Option String) (w d h mi sc : DurField)
    (wv dv hv miv sv : Nat)
    (hw : pyIntField w = .ok wv) (hd : pyIntField d = .ok dv)
    (hh : pyIntField h = .ok hv) (hmi : pyIntField mi = .ok miv)
    (hsc : pyIntField sc = .ok sv) :
    makeTimedelta sg w d h mi sc =
      .ok ((if sg = some "-" then (-1 : Int) else 1) *
        (((wv * 7 + dv) * 86400 + hv * 3600 + miv * 60 + sv : Nat) * 1000000)) := by
  simp only [makeTimedelta, hw, hd, hh, hmi, hsc]

theorem durEof_flush (du : List Int) (sg : Option String) (w d h mi sc : DurField)
    (hcond : (truthyS sg || truthyF w || truthyF d || truthyF h ||
              truthyF mi || truthyF sc) = true)
    (td : Int) (hmk : makeTimedelta sg w d h mi sc = .ok td) :
    durEof .readField ⟨du, "", sg, w, d, h, mi, sc⟩ = .ok (du ++ [td]) := by
  simp only [durEof, hcond, hmk, if_true]

theorem durRun_fields (t : Int) (ht : t % 1000000 = 0) (ht0 : t ≠ 0) (sg : Option String) :
    durRun ((if tdDaysN t ≠ 0 then natDigs (tdDaysN t) ++ ['D'] else []) ++
      ((if tdHours t ≠ 0 ∨ tdMinutes t ≠ 0 ∨ tdSeconds t ≠ 0 then ['T']
        else if tdDaysN t = 0 then ['0', 'S'] else []) ++
      ((if tdHours t ≠ 0 then natDigs (tdHours t) ++ ['H'] else []) ++
      ((if tdMinutes t ≠ 0 then natDigs (tdMinutes t) ++ ['M'] else []) ++
      (if tdSeconds t ≠ 0 then natDigs (tdSeconds t) ++ ['S'] else []))))) .readField
      ⟨[], "", sg, .int 0, .int 0, .int 0, .int 0, .int 0⟩ =
    .ok [(if sg = some "-" then (-1 : Int) else 1) * (t.natAbs : Int)] := by
  have hsum : (tdDaysN t * 86400 + tdHours t * 3600 + tdMinutes t * 60 + tdSeconds t) *
      1000000 = t.natAbs := by
    simp only [tdDaysN, tdHours, tdMinutes, tdSeconds, tdSecsN]
    omega
  have hone : tdDaysN t ≠ 0 ∨ tdHours t ≠ 0 ∨ tdMinutes t ≠ 0 ∨ tdSeconds t ≠ 0 := by
    by_contra hcon
    push_neg at hcon
    obtain ⟨h1, h2, h3, h4⟩ := hcon
    rw [h1, h2, h3, h4] at hsum
    simp at hsum
    omega
  rw [durRun_optD]
  have hfinal : ∀ cs2 : List Char,
      cs2 = (if tdHours t ≠ 0 then natDigs (tdHours t) ++ ['H'] else []) ++
        ((if tdMinutes t ≠ 0 then natDigs (tdMinutes t) ++ ['M'] else []) ++
        (if tdSeconds t ≠ 0 then natDigs (tdSeconds t) ++ ['S'] else [])) →
      durRun cs2 .readField
        ⟨[], "", sg, .int 0,
         (if tdDaysN t ≠ 0 then .str (natToStr (tdDaysN t)) else .int 0),
         .int 0, .int 0, .int 0⟩ =
      .ok [(if sg = some "-" then (-1 : Int) else 1) * (t.natAbs : Int)] := by
    intro cs2 hcs2
    subst hcs2
    rw [durRun_optH, durRun_optM,
      show (if tdSeconds t ≠ 0 then natDigs (tdSeconds t) ++ ['S'] else []) =
        (if tdSeconds t ≠ 0 then natDigs (tdSeconds t) ++ ['S'] else []) ++ ([] : List Char)
        from (List.append_nil _).symm,
      durRun_optS]
    show durEof .readField _ = _
    rw [durEof_flush _ sg _ _ _ _ _ ?hcond
        ((if sg = some "-" then (-1 : Int) else 1) *
          ((((0 * 7 + tdDaysN t) * 86400 + tdHours t * 3600 + tdMinutes t * 60 +
             tdSeconds t : Nat)) * 1000000)) ?hmk]
    case hmk =>
      exact makeTimedelta_ok sg _ _ _ _ _ 0 (tdDaysN t) (tdHours t) (tdMinutes t)
        (tdSeconds t) rfl (pyIntField_ifopt _ _ rfl) (pyIntField_ifopt _ _ rfl)
        (pyIntField_ifopt _ _ rfl) (pyIntField_ifopt _ _ rfl)
    case hcond =>
      rcases hone with h1 | h1 | h1 | h1 <;>
        simp [truthyF, h1, natToStr_ne_empty]
    rw [List.nil_append]
    congr 2
    rw [mul_right_inj'
      (show (if sg = some "-" then (-1 : Int) else 1) ≠ 0 by split <;> norm_num)]
    omega
  by_cases hz : tdHours t ≠ 0 ∨ tdMinutes t ≠ 0 ∨ tdSeconds t ≠ 0
  · rw [if_pos hz]
    simp only [List.singleton_append]
    rw [durRun_T]
    exact hfinal _ rfl
  · rw [if_neg hz]
    have hd0 : ¬ tdDaysN t = 0 := by
      push_neg at hz
      obtain ⟨h2, h3, h4⟩ := hz
      rcases hone with h1 | h1 | h1 | h1 <;> first | exact h1 | omega
    rw [if_neg hd0, List.nil_append]
    exact hfinal _ rfl

/-- C3 (amended): for every whole-second timedelta (microseconds
component zero) the duration round trip holds, and the zero timedelta
formats as exactly `"P0S"`.  (A timedelta with a microsecond remainder
does not round-trip: the formatter drops microseconds; see the
counterexample.) -/
theorem duration_roundtrip :
    (∀ t : Int, t % 1000000 = 0 →
      stringToDurations (timedeltaToString t) false = .ok [t]) ∧
    timedeltaToString 0 = "P0S" := by
  refine ⟨?_, by decide⟩
  intro t ht
  rcases eq_or_ne t 0 with rfl | ht0
  · decide
  have hne : (timedeltaToString t).data ≠ [] := by
    rw [timedeltaToString_data, timedeltaChars]
    simp
  rw [stringToDurations, if_neg hne, timedeltaToString_data, timedeltaChars]
  have hsgn : (if tdSign t = -1 then ['-'] else ([] : List Char)) =
      if t < 0 then ['-'] else [] := by
    rw [tdSign_eq]
    by_cases htn : t < 0
    · simp [htn]
    · simp [htn]
  rw [hsgn]
  by_cases htn : t < 0
  · rw [if_pos htn]
    simp only [List.singleton_append]
    rw [durRun_dash, durRun_P]
    rw [show ({ (⟨[], "", none, .int 0, .int 0, .int 0, .int 0, .int 0⟩ : DurVars) with
        sign := some "-" } : DurVars) =
        ⟨[], "", some "-", .int 0, .int 0, .int 0, .int 0, .int 0⟩ from rfl]
    rw [durRun_fields t ht ht0 (some "-")]
    congr 2
    rw [if_pos rfl]
    omega
  · rw [if_neg htn]
    simp only [List.nil_append, List.singleton_append]
    rw [durRun_P, durRun_fields t ht ht0 none]
    congr 2
    rw [if_neg (by simp)]
    omega

/-- Witness for C3: the negative timedelta -(1 day, 1 hour, 1 minute,
1 second) = -90061 seconds round-trips through its string form. -/
theorem duration_roundtrip_witness :
    stringToDurations (timedeltaToString (-90061000000)) false = .ok [-90061000000] :=
  duration_roundtrip.1 (-90061000000) (by decide)

/-- C3 counterexample: the half-second timedelta (500000 microseconds)
formats as `"P0S"`, which parses back to the zero timedelta, not to the
original value. -/
theorem duration_roundtrip_counterexample :
    timedeltaToString 500000 = "P0S" ∧
    stringToDurations (timedeltaToString 500000) false = .ok [0] ∧
    ¬ stringToDurations (timedeltaToString 500000) false = .ok [500000] := by
  decide

/-! ## Escaped-text parsing (`stringToTextValues`, lines 1334-1396)

The Python `state` variable only ever holds `"read normal"`,
`"read escaped char"`, `"end"` or `"error"`; the latter two immediately
return, so the live states are the two below.  The `error()` helper (which
would raise `ParseError` under `strict`) is called only from the
unknown-state fallback, which is unreachable, so the machine never
raises and the `strict` flag has no observable effect. -/

/-- The two live control states of the text-value state machine. -/
inductive TState where
  | readNormal
  | readEscaped
  deriving DecidableEq

/-- `char in escapableCharList` for a real character
(`escapableCharList = "\;,Nn"`). -/
def escapableChar (c : Char) : Bool :=
  "\\;,Nn".data.contains c

/-- One character step of the text-value machine: in `readNormal` a `\`
enters the escape state and a `,` closes the current value; in
`readEscaped` an escapable character maps to its meaning (`n`/`N` to a
newline) while any other character is appended literally (the source
comments "this is an error, but whatever"). -/
def textStep (st : TState) (cur : String) (results : List String) (c : Char) :
    TState × String × List String :=
  match st with
  | .readNormal =>
      if c = '\\' then (.readEscaped, cur, results)
      else if c = ',' then (.readNormal, "", results ++ [cur])
      else (.readNormal, cur.push c, results)
  | .readEscaped =>
      if escapableChar c then
        if c = 'n' ∨ c = 'N' then (.readNormal, cur.push '\n', results)
        else (.readNormal, cur.push c, results)
      else (.readNormal, cur.push c, results)

/-- Run the text-value machine.  At end of input the iterator yields the
pseudo-character `"eof"` forever: from `readNormal` the machine moves to
the `end` state, which appends the accumulator when it is non-empty or
no value has been produced yet; from `readEscaped` the three-character
string `"eof"` is not in the escapable list and is appended literally to
the accumulator, after which the next `"eof"` ends normally. -/
def textRun : List Char → TState → String → List String → List String
  | [], .readNormal, cur, results =>
      if cur ≠ "" ∨ results = [] then results ++ [cur] else results
  | [], .readEscaped, cur, results =>
      if cur ++ "eof" ≠ "" ∨ results = [] then results ++ [cur ++ "eof"]
      else results
  | c :: cs, st, cur, results =>
      match textStep st cur results c with
      | (st2, cur2, res2) => textRun cs st2 cur2 res2

/-- `stringToTextValues(s, strict)`: returns the list of decoded values.
The machine never reaches a raising path, so the result is always
`.ok` and `strict` is irrelevant. -/
def stringToTextValues (s : String) (strict : Bool) : Except PyErr (List String) :=
  .ok (textRun s.data .readNormal "" [])

theorem textRun_cons (c : Char) (cs : List Char) (st : TState) (cur : String)
    (res : List String) :
    textRun (c :: cs) st cur res =
      match textStep st cur res c with
      | (st2, cur2, res2) => textRun cs st2 cur2 res2 := by
  cases st <;> rfl

theorem textRun_ne_nil : ∀ (cs : List Char) (st : TState) (cur : String)
    (res : List String), textRun cs st cur res ≠ [] := by
  intro cs
  induction cs with
  | nil =>
    intro st cur res
    cases st <;> rw [textRun] <;> split
    · simp
    · rename_i hcond
      push_neg at hcond
      simp [hcond.2]
    · simp
    · rename_i hcond
      push_neg at hcond
      simp [hcond.2]
  | cons c cs2 ih =>
    intro st cur res
    rw [textRun]
    exact ih _ _ _

/-- C2 counterexample: `stringToTextValues("\\x", strict=True)` returns
`["x"]` (the malformed escape is appended literally) instead of raising
`ParseError`; non-strict mode gives the same result. -/
theorem strict_escape_counterexample :
    stringToTextValues "\\x" true = .ok ["x"] ∧
    stringToTextValues "\\x" false = .ok ["x"] := by
  decide

/-- C2 (amended): a backslash followed by a character outside the
escapable set is appended literally in strict mode exactly as in
non-strict mode, and `stringToTextValues` never raises: the `error()`
helper is reachable only from the unknown-state fallback, which never
executes. -/
theorem strict_escape_passthrough :
    (∀ (b : Bool) (c : Char), escapableChar c = false →
      stringToTextValues (⟨['\\', c]⟩ : String) b = .ok [⟨[c]⟩]) ∧
    (∀ (s : String) (b : Bool), ∃ r, stringToTextValues s b = .ok r) := by
  constructor
  · intro b c hc
    have h2 : textStep .readEscaped "" [] c = (.readNormal, "".push c, []) := by
      simp [textStep, hc]
    have h1 : textRun ['\\', c] .readNormal "" [] = [⟨[c]⟩] := by
      rw [show textRun ['\\', c] .readNormal "" [] = textRun [c] .readEscaped "" [] from rfl]
      rw [textRun_cons, h2]
      show textRun [] TState.readNormal ("".push c) [] = [⟨[c]⟩]
      rw [show textRun [] .readNormal ("".push c) [] =
        (if ("".push c) ≠ "" ∨ ([] : List String) = [] then [] ++ ["".push c] else [])
        from rfl]
      rw [if_pos (Or.inr rfl)]
      rfl
    show Except.ok (textRun ['\\', c] .readNormal "" []) = Except.ok [⟨[c]⟩]
    exact congrArg Except.ok h1
  · intro s b
    exact ⟨textRun s.data .readNormal "" [], rfl⟩

/-- Witness for C2: instantiating the amended claim at `c = 'x'` in
strict mode. -/
theorem strict_escape_passthrough_witness :
    stringToTextValues "\\x" true = .ok ["x"] :=
  strict_escape_passthrough.1 true 'x' (by decide)

/-- C6 counterexample: an input ending in an unescaped `,` does NOT
yield a trailing empty value: the end-of-input flush is skipped because
the accumulator is empty and a value has already been produced. -/
theorem text_eof_counterexample :
    stringToTextValues "a," false = .ok ["a"] ∧
    stringToTextValues "a," false ≠ .ok ["a", ""] := by
  decide

/-- C6 (amended): end-of-input appends the accumulator as a final value
only when the accumulator is non-empty or no value has been produced
yet; consequently the result is always non-empty, the empty input gives
exactly `[""]`, and an input ending in an unescaped comma (for example
`"a,"`) gains no trailing empty value. -/
theorem text_eof_flush :
    stringToTextValues "" false = .ok [""] ∧
    stringToTextValues "a," false = .ok ["a"] ∧
    ∀ s : String, ∃ r, stringToTextValues s false = .ok r ∧ r ≠ [] := by
  refine ⟨by decide, by decide, ?_⟩
  intro s
  exact ⟨textRun s.data .readNormal "" [], rfl, textRun_ne_nil s.data .readNormal "" []⟩

/-! ## Recurrence: `RecurringComponent.getrruleset` (lines 378-428)

Datetimes are abstract ordered instants (`Int`) here; only identity and
order of occurrences matter to this logic.

The external expansion primitive (`dateutil.rrule`) is not part of this
repository.  Modelled from the spec: given a rule descriptor and an
anchor instant it produces a restartable, lazily-evaluated ascending
sequence of occurrence instants; a rule object carries a mutable
`_count`, is indexable (`rule[0]` is its first occurrence, raising
`IndexError` when there is none) and a set of such rules plus explicit
inclusion/exclusion dates enumerates the layered union in ascending
order.  A `RuleObj` carries the occurrence stream (a sufficiently long
finite prefix) that `dateutil.rrule.rrulestr(text, dtstart)` would
produce for its rule line before `COUNT` truncation, plus the parsed
`COUNT` value. -/

/-- A rule object as built by the expansion primitive (spec-modelled,
see above): `occs` is the ascending occurrence stream ignoring `COUNT`;
`count` is the mutable `_count` slot. -/
structure RuleObj where
  occs : List Int
  count : Option Int
  deriving DecidableEq

/-- The occurrences a rule object enumerates: its stream truncated to
`_count` entries when a count is set. -/
def RuleObj.listOccs (r : RuleObj) : List Int :=
  match r.count with
  | some c => r.occs.take c.toNat
  | none => r.occs

/-- A `dateutil.rrule.rruleset`: inclusion/exclusion rules and dates. -/
structure RRuleSetM where
  rrule : List RuleObj
  exrule : List RuleObj
  rdate : List Int
  exdate : List Int
  deriving DecidableEq

/-- The empty `rruleset()`. -/
def emptyRRuleSet : RRuleSetM := ⟨[], [], [], []⟩

/-- `list(rruleset)` (spec-modelled enumeration of the expansion
primitive): the ascending deduplicated union of rule occurrences and
explicit dates, minus the excluded instants. -/
def RRuleSetM.toList (rs : RRuleSetM) : List Int :=
  let incl := (rs.rrule.map RuleObj.listOccs).flatten ++ rs.rdate
  let excl := (rs.exrule.map RuleObj.listOccs).flatten ++ rs.exdate
  ((incl.filter (fun d => ¬ d ∈ excl)).dedup).insertionSort (· ≤ ·)

/-- A `RecurringComponent` as far as `getrruleset` reads it:
`contents['dtstart']` values (`[]` means the attribute is missing, so
`self.dtstart` raises `AttributeError`), the rule objects the expansion
primitive builds from each RRULE/EXRULE line, and the instant lists of
each RDATE/EXDATE line. -/
structure RecurringComp where
  dtstart : List Int
  rrule : List RuleObj
  exrule : List RuleObj
  rdate : List (List Int)
  exdate : List (List Int)
  deriving DecidableEq

/-- Decrement `_count` of the last rule (`rruleset._rrule[-1]._count -= 1`). -/
def decLastCount (rs : RRuleSetM) : RRuleSetM :=
  match rs.rrule.getLast? with
  | none => rs
  | some r =>
      { rs with rrule := rs.rrule.dropLast ++ [{ r with count := r.count.map (· - 1) }] }

/-- Process the lines of one rule name (`exrule` or `rrule`).  Mirrors
the Python loop body: create the rruleset on demand, look up
`self.dtstart[0].value` (returning `None` for the whole call when the
attribute is missing -- the `except AttributeError` path), feed the rule
to the set, and under `addRDate` for `rrule` lines run the DTSTART
work-around, whose `added` local starts unbound (`none`). -/
def processRuleLines (dtstartList : List Int) (addRDate isRRule : Bool) :
    List RuleObj → Option RRuleSetM → Option Bool →
    Except PyErr (Option (Option RRuleSetM × Option Bool))
  | [], rrs, added => .ok (some (rrs, added))
  | line :: rest, rrs, added =>
      let rs := rrs.getD emptyRRuleSet
      match dtstartList with
      | [] => .ok none
      | dtstart :: _ =>
          let rs := if isRRule then { rs with rrule := rs.rrule ++ [line] }
                    else { rs with exrule := rs.exrule ++ [line] }
          if isRRule ∧ addRDate then
            let step : RRuleSetM × Option Bool :=
              match line.listOccs.head? with
              | none => (rs, some false)
              | some f =>
                  if f ≠ dtstart then
                    ({ rs with rdate := rs.rdate ++ [dtstart] }, some true)
                  else (rs, added)
            match step.2 with
            | none => .error .unboundLocal
            | some a =>
                let rs2 := if a then decLastCount step.1 else step.1
                processRuleLines dtstartList addRDate isRRule rest (some rs2) (some a)
          else processRuleLines dtstartList addRDate isRRule rest (some rs) added

/-- Process the lines of one date name (`rdate` or `exdate`).  The type
dispatch reads `line.value[0]`, which raises `IndexError` on an empty
list; native multi-date values here are datetime lists, so every
element is added. -/
def processDateLines (isRDate : Bool) :
    List (List Int) → Option RRuleSetM → Except PyErr (Option RRuleSetM)
  | [], rrs => .ok rrs
  | line :: rest, rrs =>
      let rs := rrs.getD emptyRRuleSet
      match line with
      | [] => .error .indexError
      | _ =>
          let rs := if isRDate then { rs with rdate := rs.rdate ++ line }
                    else { rs with exdate := rs.exdate ++ line }
          processDateLines isRDate rest (some rs)

/-- `getrruleset(self, addRDate)`: iterate the names in the fixed order
`exrule`, `rrule`, `rdate`, `exdate`; return `None` when no line created
a set, or when a rule line found no DTSTART. -/
def getrruleset (comp : RecurringComp) (addRDate : Bool) :
    Except PyErr (Option RRuleSetM) :=
  match processRuleLines comp.dtstart addRDate false comp.exrule none none with
  | .error e => .error e
  | .ok none => .ok none
  | .ok (some (rs1, added1)) =>
      match processRuleLines comp.dtstart addRDate true comp.rrule rs1 added1 with
      | .error e => .error e
      | .ok none => .ok none
      | .ok (some (rs2, _)) =>
          match processDateLines true comp.rdate rs2 with
          | .error e => .error e
          | .ok rs3 =>
              match processDateLines false comp.exdate rs3 with
              | .error e => .error e
              | .ok rs4 => .ok rs4

/-- `list(component.getrruleset(addRDate))`: the enumerated occurrences
of the produced expansion set, when one is produced. -/
def getrrulesetOccurrences (comp : RecurringComp) (addRDate : Bool) :
    Except PyErr (Option (List Int)) :=
  match getrruleset comp addRDate with
  | .error e => .error e
  | .ok rs => .ok (rs.map RRuleSetM.toList)

/-- The doctest component: DTSTART 2005-01-19T09:00 (encoded 0) with
RRULE `FREQ=WEEKLY;COUNT=2;INTERVAL=2;BYDAY=TU,TH`, whose expansion
stream from that anchor begins 2005-01-20T09:00 (1), 2005-02-01T09:00
(2) -- the anchor Wednesday is not generated by the rule. -/
def exampleEvent : RecurringComp :=
  ⟨[0], [⟨[1, 2], some 2⟩], [], [], []⟩

/-- A component whose DTSTART (encoded 10) is itself the first
occurrence of its single RRULE (stream 10, 17 with COUNT=2), e.g.
DTSTART 2005-01-04T09:00 with `FREQ=WEEKLY;COUNT=2;BYDAY=TU`. -/
def exampleEventMatching : RecurringComp :=
  ⟨[10], [⟨[10, 17], some 2⟩], [], [], []⟩

/-- C5: evaluating `getrruleset(addRDate=True)`.  For the doctest
component (DTSTART not generated by its rule) the work-around adds
DTSTART as an RDATE and decrements COUNT, enumerating
`[2005-01-19T09:00, 2005-01-20T09:00]` (encoded `[0, 1]`).  But when the
rule's first occurrence IS DTSTART, the claim says no RDATE is added and
COUNT is unchanged -- instead the local `added` is never assigned and
the code raises `UnboundLocalError`. -/
theorem getrruleset_addRDate_eval :
    getrrulesetOccurrences exampleEvent true = .ok (some [0, 1]) ∧
    getrruleset exampleEventMatching true = .error .unboundLocal := by
  decide

/-- C7: a component with at least one RRULE or EXRULE line but no
DTSTART yields `.ok none` (no expansion available, no exception); and a
component with no rule or date line at all yields `.ok none` (no
recurrence). -/
theorem getrruleset_none_cases :
    (∀ (comp : RecurringComp) (b : Bool), comp.dtstart = [] →
      (comp.rrule ≠ [] ∨ comp.exrule ≠ []) →
      getrruleset comp b = .ok none) ∧
    (∀ (comp : RecurringComp) (b : Bool), comp.rrule = [] → comp.exrule = [] →
      comp.rdate = [] → comp.exdate = [] →
      getrruleset comp b = .ok none) := by
  constructor
  · intro comp b hdt hor
    rw [getrruleset]
    cases hex : comp.exrule with
    | cons e es =>
      rw [hdt]
      simp [processRuleLines]
    | nil =>
      have hr : comp.rrule ≠ [] := by
        rcases hor with h | h
        · exact h
        · exact absurd hex h
      cases hrr : comp.rrule with
      | nil => exact absurd hrr hr
      | cons r rs2 =>
        rw [hdt]
        simp [processRuleLines]
  · intro comp b h1 h2 h3 h4
    rw [getrruleset, h1, h2, h3, h4]
    simp [processRuleLines, processDateLines]

/-- Witness for C7: a component with one RRULE and no DTSTART, and a
component with no recurrence lines at all, both yield `.ok none`. -/
theorem getrruleset_none_cases_witness :
    getrruleset ⟨[], [⟨[1], some 1⟩], [], [], []⟩ true = .ok none ∧
    getrruleset ⟨[5], [], [], [], []⟩ false = .ok none :=
  ⟨getrruleset_none_cases.1 ⟨[], [⟨[1], some 1⟩], [], [], []⟩ true rfl
      (Or.inl (by decide)),
   getrruleset_none_cases.2 ⟨[5], [], [], [], []⟩ false rfl rfl rfl rfl⟩

/-! ## Timezone identifier selection (`TimezoneComponent.pickTzid`,
lines 305-328)

A tzinfo source is an arbitrary Python object; `pickTzid` only looks at
equality with the module `utc` singleton, the optional `tzid`/`_tzid`
attributes, and `dst`/`tzname` probed at `datetime(2000, month, 1)`.
`TzInfoM` records exactly those observations (the underscore attribute
is spelled `utzid`). -/

/-- Observable behavior of a tzinfo source as `pickTzid` probes it:
`eqUtc` is the result of `tzinfo == utc`; `tzid`/`utzid` model the
`tzid`/`_tzid` attributes (absent = `none`); `dst m` is
`tzinfo.dst(datetime(2000, m, 1))` in seconds and `tzname m` the
matching `tzname` string. -/
structure TzInfoM where
  eqUtc : Bool
  tzid : Option String
  utzid : Option String
  dst : Nat → Int
  tzname : Nat → String

/-- `pickTzid(tzinfo)`: `None` for an absent or UTC source; else the
`tzid` attribute, else `_tzid`; else `tzname` at the first month of 2000
with zero DST offset; else raise `VObjectError`. -/
def pickTzid (tzinfo : Option TzInfoM) : Except PyErr (Option String) :=
  match tzinfo with
  | none => .ok none
  | some tz =>
      if tz.eqUtc then .ok none
      else match tz.tzid with
      | some v => .ok (some v)
      | none => match tz.utzid with
        | some v => .ok (some v)
        | none =>
            match (List.range' 1 12).find? (fun m => tz.dst m = 0) with
            | some m => .ok (some (tz.tzname m))
            | none => .error .vobjectError

theorem find_first {p : Nat → Bool} : ∀ (s n : Nat),
    (∃ m, s ≤ m ∧ m < s + n ∧ p m = true) →
    ∃ m, (List.range' s n).find? p = some m ∧ s ≤ m ∧ m < s + n ∧ p m = true ∧
      ∀ k, s ≤ k → k < m → p k = false := by
  intro s n
  induction n generalizing s with
  | zero =>
    rintro ⟨m, h1, h2, h3⟩
    omega
  | succ n ih =>
    rintro ⟨m, h1, h2, h3⟩
    rw [List.range'_succ]
    by_cases hs : p s = true
    · refine ⟨s, ?_, le_refl s, by omega, hs, fun k hk1 hk2 => by omega⟩
      simp [List.find?_cons, hs]
    · have hps : p s = false := by
        cases hp : p s
        · rfl
        · exact absurd hp hs
      have hm : m ≠ s := by
        intro hcon
        rw [hcon] at h3
        exact hs h3
      obtain ⟨m2, hf, hm1, hm2, hm3, hm4⟩ := ih (s + 1) ⟨m, by omega, by omega, h3⟩
      refine ⟨m2, ?_, by omega, by omega, hm3, ?_⟩
      · rw [List.find?_cons, hps]
        exact hf
      · intro k hk1 hk2
        rcases Nat.eq_or_lt_of_le hk1 with hk | hk
        · rw [← hk]
          exact hps
        · exact hm4 k (by omega) hk2

/-- C9: the full branch behavior of `pickTzid`: `None` for an absent or
UTC source; the explicit `tzid` attribute when present, else `_tzid`;
else the source's `tzname` at the first month of the reference year 2000
whose DST offset is zero; and a `VObjectError` when no month of 2000 has
a zero DST offset. -/
theorem pickTzid_branches :
    pickTzid none = .ok none ∧
    (∀ tz : TzInfoM, tz.eqUtc = true → pickTzid (some tz) = .ok none) ∧
    (∀ (tz : TzInfoM) (v : String), tz.eqUtc = false → tz.tzid = some v →
      pickTzid (some tz) = .ok (some v)) ∧
    (∀ (tz : TzInfoM) (v : String), tz.eqUtc = false → tz.tzid = none →
      tz.utzid = some v → pickTzid (some tz) = .ok (some v)) ∧
    (∀ (tz : TzInfoM) (m : Nat), tz.eqUtc = false → tz.tzid = none →
      tz.utzid = none → 1 ≤ m → m ≤ 12 → tz.dst m = 0 →
      (∀ k, 1 ≤ k → k < m → tz.dst k ≠ 0) →
      pickTzid (some tz) = .ok (some (tz.tzname m))) ∧
    (∀ tz : TzInfoM, tz.eqUtc = false → tz.tzid = none → tz.utzid = none →
      (∀ k, 1 ≤ k → k ≤ 12 → tz.dst k ≠ 0) →
      pickTzid (some tz) = .error .vobjectError) := by
  refine ⟨rfl, ?_, ?_, ?_, ?_, ?_⟩
  · intro tz h
    rw [pickTzid, if_pos h]
  · intro tz v h h2
    rw [pickTzid, if_neg (by simp [h]), h2]
  · intro tz v h h2 h3
    rw [pickTzid, if_neg (by simp [h]), h2, h3]
  · intro tz m h h2 h3 hm1 hm2 hdst hfirst
    rw [pickTzid, if_neg (by simp [h]), h2, h3]
    obtain ⟨m2, hf, hb1, hb2, hb3, hb4⟩ :=
      @find_first (fun k => tz.dst k = 0) 1 12 ⟨m, hm1, by omega, by simpa using hdst⟩
    have hmm : m2 = m := by
      rcases Nat.lt_trichotomy m2 m with hlt | heq | hgt
      · exact absurd hb3 (by simpa using hfirst m2 hb1 hlt)
      · exact heq
      · have := hb4 m hm1 hgt
        simp [hdst] at this
    rw [hf, hmm]
  · intro tz h h2 h3 hall
    rw [pickTzid, if_neg (by simp [h]), h2, h3]
    have hnone : (List.range' 1 12).find? (fun m => tz.dst m = 0) = none := by
      rw [List.find?_eq_none]
      intro x hx
      rw [List.mem_range'_1] at hx
      simpa using hall x hx.1 (by omega)
    rw [hnone]

/-- A source with DST in effect January through March of 2000 and an
`"EST"`-style abbreviation, and one claiming a nonzero DST offset in
every month of 2000. -/
def tzExSeasonal : TzInfoM :=
  ⟨false, none, none, fun m => if m ≤ 3 then 3600 else 0, fun _ => "EST"⟩

/-- A pathological source whose DST offset is nonzero in every month. -/
def tzExAllDst : TzInfoM :=
  ⟨false, none, none, fun _ => 3600, fun _ => "XXX"⟩

/-- Witness for C9: the seasonal source names its standard-time
abbreviation (first zero-DST month is April); the always-DST source
raises `VObjectError`. -/
theorem pickTzid_branches_witness :
    pickTzid (some tzExSeasonal) = .ok (some "EST") ∧
    pickTzid (some tzExAllDst) = .error .vobjectError := by
  constructor
  · exact pickTzid_branches.2.2.2.2.1 tzExSeasonal 4 rfl rfl rfl (by omega) (by omega)
      (by decide)
      (by
        intro k hk1 hk2
        interval_cases k <;> decide)
  · exact pickTzid_branches.2.2.2.2.2 tzExAllDst rfl rfl rfl
      (by
        intro k hk1 hk2
        simp [tzExAllDst])

/-! ## C1: `DateTimeBehavior.transformToNative` (lines 568-590)

A `ContentLine` node carries a `value` slot whose runtime type changes
during a transform (`PyVal`), the `isNative` flag, and the parameters
this behavior touches.  Mutations are modelled by threading the node
state; a raised exception leaves the mutations already made in place,
so the function returns the final node state together with the
exception, if any. -/

/-- The runtime value in a content line's `value` slot. -/
inductive PyVal where
  | str (s : String)
  | dt (d : DateTime)
  | date (y mo d : Nat)
  | pynone
  deriving DecidableEq

/-- A `ContentLine` as `DateTimeBehavior` reads and mutates it:
`tzidParam`/`valueParam` model `params['TZID'][0]` / `params['VALUE'][0]`
(absent = `none`), `floatingParam` models the
`X-VOBJ-FLOATINGTIME-ALLOWED` marker. -/
structure CLine where
  value : PyVal
  isNative : Bool
  tzidParam : Option String
  valueParam : Option String
  floatingParam : Bool
  deriving DecidableEq

/-- `getTzid(key)` against a registry state: the tzid registry maps
string identifiers to tzinfo sources; looking up `None` (absent TZID
parameter) misses. -/
def getTzidReg (reg : String → Option TZ) : Option String → Option TZ
  | none => none
  | some k => reg k

/-- The registry as populated at module initialization:
`registerTzid("UTC", utc)` only. -/
def reg0 : String → Option TZ :=
  fun k => if k = "UTC" then some TZ.utc else none

/-- Python `str(value)`: identity on the strings that reach the
modelled call sites (a non-native node's value is raw text). -/
def pyStr : PyVal → String
  | .str s => s
  | _ => ""

/-- The `tzinfo` attribute of a value: datetimes expose their tzinfo;
strings, dates and `None` raise `AttributeError`. -/
def pyTzinfo : PyVal → Except PyErr (Option TZ)
  | .dt d => .ok d.tz
  | _ => .error .attributeError

/-- Python `str.upper()` on the parameter strings compared here. -/
def pyUpper (s : String) : String :=
  ⟨s.data.map Char.toUpper⟩

/-- `parseDtstart(contentline)`: dispatch on the `VALUE` parameter
(default `DATE-TIME`) to `stringToDate` or `stringToDateTime` with the
tzinfo registered for the `TZID` parameter.  An unrecognized `VALUE`
falls off the end of the Python function and returns `None`. -/
def parseDtstart (reg : String → Option TZ) (obj : CLine) : Except PyErr PyVal :=
  let tzinfo := getTzidReg reg obj.tzidParam
  let valueParam := pyUpper (obj.valueParam.getD "DATE-TIME")
  if valueParam = "DATE" then
    match stringToDate (pyStr obj.value) with
    | .error e => .error e
    | .ok (y, mo, d) => .ok (.date y mo d)
  else if valueParam = "DATE-TIME" then
    match stringToDateTime (pyStr obj.value) tzinfo with
    | .error e => .error e
    | .ok d => .ok (.dt d)
  else .ok .pynone

/-- `DateTimeBehavior.transformToNative(obj)`: already-native nodes are
returned unchanged; otherwise `obj.isNative` is set `True` FIRST, then
`obj.value` is parsed (a `ParseError` escapes here, leaving the node
half-migrated), the floating-time marker is set for naive values, and a
consumed `TZID` parameter is deleted. -/
def DateTimeBehavior.transformToNative (reg : String → Option TZ) (obj : CLine) :
    CLine × Option PyErr :=
  if obj.isNative then (obj, none)
  else
    let obj1 := { obj with isNative := true }
    let obj2 := { obj1 with value := .str (pyStr obj1.value) }
    match parseDtstart reg obj2 with
    | .error e => (obj2, some e)
    | .ok v =>
        let obj3 := { obj2 with value := v }
        match pyTzinfo v with
        | .error e => (obj3, some e)
        | .ok tzo =>
            let obj4 := if tzo = none then { obj3 with floatingParam := true } else obj3
            let obj5 := if obj4.tzidParam.isSome then { obj4 with tzidParam := none }
                        else obj4
            (obj5, none)

/-- A non-native DATE-TIME content line whose text is not a valid
DATE-TIME. -/
def badDateTimeNode : CLine := ⟨.str "BOGUS", false, none, none, false⟩

/-- C1: evaluating the failing transform.  `stringToDateTime` raises
`ParseError` on `"BOGUS"`, and the node is left with `isNative = True`
while `value` is still the raw string -- exactly the half-migrated state
the specification forbids (`isNative` set before the fallible parse,
with no revert on failure). -/
theorem transformToNative_half_migrated :
    DateTimeBehavior.transformToNative reg0 badDateTimeNode =
      (⟨.str "BOGUS", true, none, none, false⟩, some .parseError) ∧
    (DateTimeBehavior.transformToNative reg0 badDateTimeNode).1.isNative = true ∧
    (DateTimeBehavior.transformToNative reg0 badDateTimeNode).1.value = .str "BOGUS" := by
  decide
